import Mathlib

/-!
Shallow embedding of the `workerpool` package (worker pool with a bounded
task queue, a dispatcher and N workers) together with proofs of its
specification properties.

Modelling conventions:
* Go `int`/`int64` values are modelled as `Int`; where the source can
  overflow (the metrics counters and duration sums, which Go wraps in
  two's complement), the wrap is made explicit through `wrap64`.
* The channel `taskQueue` (created with `make(chan Task, queueSize)`) is
  modelled by its buffer: a `List` of tasks plus its capacity, a closed
  flag (set by `close` in `Stop`) and the shared cancellation signal
  (`context.WithCancel`; `cancel()` is raised in `Stop`).
* `Submit` runs under `mu.RLock` and `Start`/`Stop` under `mu.Lock`, so
  each of these operations is atomic with respect to the others; they are
  modelled as state transformers.  The `select` in `Submit` is
  deterministic except when both the send case and the `ctx.Done()` case
  are ready at once; that tie is resolved by an explicit `pick` argument
  (Go chooses pseudo-randomly).  A send on the closed queue is a Go
  panic, modelled by a distinguished result.
* The send case of the `select` is ready exactly when the buffer has a
  free slot (the dispatcher's competing receive, which could make a
  rendezvous succeed on an unbuffered queue, is the "a task is removed
  from the queue" situation that the queue-capacity property explicitly
  excludes).
* Handler errors (`error` values produced by user code) are modelled as
  `Option String`; `none` is Go's `nil`.
* The worker's `processTask` reads the wall clock (`time.Since`); the
  measured duration is therefore an explicit parameter of the model.
-/

namespace workerpool

/-- Metrics of the pool: the four counters of the Go struct `Metrics`
(the mutex that guards them in Go is not part of the data).  All four
fields are Go `int64` (a `time.Duration` is an `int64` nanosecond
count). -/
structure Metrics where
  TasksProcessed : Int
  TasksFailed : Int
  TotalDuration : Int
  AverageDuration : Int
deriving Repr, DecidableEq

/-- Zero value `&Metrics{}` used by `NewWorkerPool`. -/
def Metrics.empty : Metrics :=
  { TasksProcessed := 0, TasksFailed := 0, TotalDuration := 0, AverageDuration := 0 }

/-- Two's-complement wrap of an integer into the `int64` range
`[-9223372036854775808, 9223372036854775807]`. -/
def wrap64 (x : Int) : Int :=
  (x + 9223372036854775808) % 18446744073709551616 - 9223372036854775808

/-- A task: ID, opaque payload, handler `func(interface{}) (interface{}, error)`,
and the two optional sinks.  In Go the sinks are the channels
`Result chan Result` and `Error chan error`; the model records whether each
channel is non-`nil` (`processTask` only checks them against `nil` before
sending). -/
structure Task (α : Type) where
  ID : Int
  Payload : α
  Handler : α → α × Option String
  hasResultSink : Bool
  hasErrorSink : Bool

/-- The `Result` struct published on a task's result channel. -/
structure Result (α : Type) where
  TaskID : Int
  Payload : α
  Output : α
  Duration : Int

/-- The three sentinel errors of `errors.go`. -/
inductive PoolErr where
  | ErrPoolNotStarted
  | ErrPoolStopped
  | ErrQueueFull
deriving Repr, DecidableEq

/-- State of a `WorkerPool`.  `taskQueue` is the buffer of the task
channel and `queueCap` its capacity; `queueClosed` records `close(taskQueue)`;
`cancelled` records whether `cancel()` has been raised on the shared
context; `liveWorkers`/`liveDispatchers` count the goroutines spawned by
`Start` that have not yet exited (they model the `sync.WaitGroup`). -/
structure WorkerPool (α : Type) where
  workerCount : Int
  queueCap : Int
  taskQueue : List (Task α)
  queueClosed : Bool
  cancelled : Bool
  started : Bool
  metrics : Metrics
  liveWorkers : Nat
  liveDispatchers : Nat

/-- Constructor `NewWorkerPool(workerCount, queueSize)`: clamps
`workerCount` to at least 1 and `queueSize` to at least 0, creates an
empty open queue, a fresh (uncancelled) context, zero metrics, and the
not-started state. -/
def NewWorkerPool (α : Type) (workerCount queueSize : Int) : WorkerPool α :=
  let wc := if workerCount ≤ 0 then 1 else workerCount
  let qs := if queueSize < 0 then 0 else queueSize
  { workerCount := wc
    queueCap := qs
    taskQueue := []
    queueClosed := false
    cancelled := false
    started := false
    metrics := Metrics.empty
    liveWorkers := 0
    liveDispatchers := 0 }

/-- Method `Start`: under `mu.Lock`, if already started return at once;
otherwise spawn `workerCount` workers and one dispatcher and set
`started`. -/
def WorkerPool.Start {α : Type} (wp : WorkerPool α) : WorkerPool α :=
  if wp.started then wp
  else
    { wp with
      liveWorkers := wp.liveWorkers + wp.workerCount.toNat
      liveDispatchers := wp.liveDispatchers + 1
      started := true }

/-- Method `Stop`: under `mu.Lock`, if not started return at once;
otherwise close the task queue, raise cancellation, wait for every
worker and the dispatcher to exit (`wg.Wait()`), and clear `started`.
How far the exiting dispatcher drains the already-buffered tasks is a
race the source leaves open; the buffer is left untouched here, and no
modelled claim depends on it. -/
def WorkerPool.Stop {α : Type} (wp : WorkerPool α) : WorkerPool α :=
  if !wp.started then wp
  else
    { wp with
      queueClosed := true
      cancelled := true
      liveWorkers := 0
      liveDispatchers := 0
      started := false }

/-- Outcome of `Submit`: either the task was enqueued (the new pool
state), or one of the sentinel errors was returned, or the select chose
a send on the closed queue, which panics in Go. -/
inductive SubmitResult (α : Type) where
  | ok (wp : WorkerPool α)
  | err (e : PoolErr)
  | panicked

/-- Method `Submit(task)`: under `mu.RLock`, return `ErrPoolNotStarted`
unless started, then run the three-way `select`: send to the queue if
that case is ready (free buffer slot, or closed queue — a panic),
`ErrPoolStopped` if cancellation is ready, `ErrQueueFull` by `default`
when neither is.  When both the send and the cancellation case are ready
Go picks one pseudo-randomly; `pick = true` resolves that tie towards
the send. -/
def WorkerPool.Submit {α : Type} (wp : WorkerPool α) (task : Task α) (pick : Bool) :
    SubmitResult α :=
  if wp.started = false then .err .ErrPoolNotStarted
  else if (wp.queueClosed = true ∨ (wp.taskQueue.length : Int) < wp.queueCap)
          ∧ (wp.cancelled = false ∨ pick = true) then
    if wp.queueClosed = true then .panicked
    else .ok { wp with taskQueue := wp.taskQueue ++ [task] }
  else if wp.cancelled = true then .err .ErrPoolStopped
  else .err .ErrQueueFull

/-- Method `updateMetrics(err, duration)` (stated on the `Metrics` value
the pool owns): increments `TasksProcessed`, adds `duration` to
`TotalDuration`, recomputes `AverageDuration` as the truncated quotient
`TotalDuration / TasksProcessed` whenever the new count is positive, and
increments `TasksFailed` when `err != nil`.  Go `int64` arithmetic
wraps, hence `wrap64`; Go integer division truncates toward zero, hence
`Int.tdiv`. -/
def updateMetrics (m : Metrics) (err : Option String) (duration : Int) : Metrics :=
  let processed := wrap64 (m.TasksProcessed + 1)
  let total := wrap64 (m.TotalDuration + duration)
  let avg := if 0 < processed then total.tdiv processed else m.AverageDuration
  let failed := if err.isSome then wrap64 (m.TasksFailed + 1) else m.TasksFailed
  { TasksProcessed := processed
    TasksFailed := failed
    TotalDuration := total
    AverageDuration := avg }

/-- Method `GetMetrics`: under the metrics lock, build and return a new
`Metrics` value from the four counters (a copy, not the pool's own
struct). -/
def WorkerPool.GetMetrics {α : Type} (wp : WorkerPool α) : Metrics :=
  { TasksProcessed := wp.metrics.TasksProcessed
    TasksFailed := wp.metrics.TasksFailed
    TotalDuration := wp.metrics.TotalDuration
    AverageDuration := wp.metrics.AverageDuration }

/-- Method `GetWorkerCount`. -/
def WorkerPool.GetWorkerCount {α : Type} (wp : WorkerPool α) : Int :=
  wp.workerCount

/-- Method `IsRunning`. -/
def WorkerPool.IsRunning {α : Type} (wp : WorkerPool α) : Bool :=
  wp.started

/-- Everything `processTask` does besides logging: the metrics value
after the update, and what was sent on each of the task's sinks
(`none` = nothing sent). -/
structure ProcessEffect (α : Type) where
  metrics : Metrics
  errSent : Option String
  resultSent : Option (Result α)

/-- Method `processTask(task, workerID)` (stated on the `Metrics` value
the pool owns; `duration` is the measured `time.Since(startTime)`): run
the handler on the payload, update the metrics first, then — on a
handler error — send exactly that error to the error sink when it is
non-`nil` and return; otherwise send a `Result` with the task's ID, its
payload, the handler output and the duration to the result sink when it
is non-`nil`.  An absent sink means the outcome is discarded. -/
def processTask {α : Type} (m : Metrics) (task : Task α) (duration : Int) :
    ProcessEffect α :=
  let r := task.Handler task.Payload
  let m' := updateMetrics m r.2 duration
  match r.2 with
  | some e =>
      { metrics := m'
        errSent := if task.hasErrorSink then some e else none
        resultSent := none }
  | none =>
      { metrics := m'
        errSent := none
        resultSent :=
          if task.hasResultSink then
            some { TaskID := task.ID, Payload := task.Payload, Output := r.1, Duration := duration }
          else none }

/-- Iterated submission (each with the deterministic tie-break; the tie
never arises on an uncancelled pool): stop at the first submission that
does not succeed. -/
def submitAll {α : Type} (wp : WorkerPool α) : List (Task α) → Option (WorkerPool α)
  | [] => some wp
  | t :: ts =>
    match wp.Submit t false with
    | .ok wp' => submitAll wp' ts
    | _ => none

/-- One step of the history of the pool's metrics cell: either a worker
runs `updateMetrics` on it, or a reader calls `GetMetrics`. -/
inductive MetricsEvent where
  | update (err : Option String) (duration : Int)
  | snapshot

/-- The metrics value after a list of events (snapshots do not change it). -/
def applyEvents (m : Metrics) : List MetricsEvent → Metrics
  | [] => m
  | .update e d :: evs => applyEvents (updateMetrics m e d) evs
  | .snapshot :: evs => applyEvents m evs

/-- The copy `GetMetrics` builds from a metrics value. -/
def snapshotOf (m : Metrics) : Metrics :=
  { TasksProcessed := m.TasksProcessed
    TasksFailed := m.TasksFailed
    TotalDuration := m.TotalDuration
    AverageDuration := m.AverageDuration }

/-- Run a history of updates and snapshot calls over the metrics cell,
collecting the value each snapshot call returned, in order. -/
def runMetricsTrace (m : Metrics) : List MetricsEvent → List Metrics
  | [] => []
  | .update e d :: evs => runMetricsTrace (updateMetrics m e d) evs
  | .snapshot :: evs => snapshotOf m :: runMetricsTrace m evs

/-- Fold `updateMetrics` over a list of `(err, duration)` pairs. -/
def updateAll (m : Metrics) : List (Option String × Int) → Metrics
  | [] => m
  | (e, d) :: l => updateAll (updateMetrics m e d) l

/-- Number of pairs in the list whose error component is non-`nil`. -/
def errCount : List (Option String × Int) → Int
  | [] => 0
  | (e, _) :: l => (if e.isSome then 1 else 0) + errCount l

/-- A concrete no-op task over `Int` payloads, used to instantiate the
universally quantified properties on concrete inputs. -/
def probeTask : Task Int :=
  { ID := 1, Payload := 0, Handler := fun x => (x, none),
    hasResultSink := false, hasErrorSink := false }

/-! ### Helper lemmas -/

/-- On any pool that is not in the started state, `Submit` fails with
`ErrPoolNotStarted` before reaching the `select`. -/
theorem Submit_of_not_started {α : Type} {wp : WorkerPool α} (t : Task α) (pick : Bool)
    (h : wp.started = false) : wp.Submit t pick = .err .ErrPoolNotStarted := by
  unfold WorkerPool.Submit
  rw [if_pos h]

/-- Integers already inside the `int64` range are fixed by `wrap64`. -/
theorem wrap64_id {x : Int} (h1 : -9223372036854775808 ≤ x)
    (h2 : x < 9223372036854775808) : wrap64 x = x := by
  unfold wrap64
  omega

/-- After a `Start`, the pool is in the started state. -/
theorem Start_started {α : Type} (p : WorkerPool α) : p.Start.started = true := by
  unfold WorkerPool.Start
  by_cases h : p.started <;> simp [h]

/-- Calling `Start` on an already-started pool changes nothing. -/
theorem Start_of_started {α : Type} {p : WorkerPool α} (h : p.started = true) :
    p.Start = p := by
  unfold WorkerPool.Start
  simp [h]

/-- After a `Stop`, the pool is never in the started state. -/
theorem Stop_started {α : Type} (p : WorkerPool α) : p.Stop.started = false := by
  unfold WorkerPool.Stop
  by_cases h : p.started <;> simp [h]

/-- A `Submit` on a started pool with an open, uncancelled queue that has a
free buffer slot enqueues the task at the back of the queue. -/
theorem Submit_ok {α : Type} (wp : WorkerPool α) (t : Task α) (pick : Bool)
    (hs : wp.started = true) (hc : wp.queueClosed = false)
    (hx : wp.cancelled = false) (hlt : (wp.taskQueue.length : Int) < wp.queueCap) :
    wp.Submit t pick = .ok { wp with taskQueue := wp.taskQueue ++ [t] } := by
  unfold WorkerPool.Submit
  rw [if_neg (by simp [hs]), if_pos ⟨Or.inr hlt, Or.inl hx⟩, if_neg (by simp [hc])]

/-- A `Submit` on a started pool with an open, uncancelled queue whose
buffer is full takes the `default` branch of the `select` and returns
`ErrQueueFull`. -/
theorem Submit_full {α : Type} (wp : WorkerPool α) (t : Task α) (pick : Bool)
    (hs : wp.started = true) (hc : wp.queueClosed = false)
    (hx : wp.cancelled = false) (hge : wp.queueCap ≤ (wp.taskQueue.length : Int)) :
    wp.Submit t pick = .err .ErrQueueFull := by
  unfold WorkerPool.Submit
  rw [if_neg (by simp [hs]), if_neg ?_, if_neg (by simp [hx])]
  rintro ⟨h1 | h1, -⟩
  · rw [hc] at h1
    exact Bool.false_ne_true h1
  · omega

/-- Submitting a list of tasks that fits in the remaining buffer space of a
started, open, uncancelled pool succeeds and appends them in order. -/
theorem submitAll_fills {α : Type} (ts : List (Task α)) (wp : WorkerPool α)
    (hs : wp.started = true) (hc : wp.queueClosed = false) (hx : wp.cancelled = false)
    (hlen : (wp.taskQueue.length : Int) + ts.length ≤ wp.queueCap) :
    submitAll wp ts = some { wp with taskQueue := wp.taskQueue ++ ts } := by
  induction ts generalizing wp with
  | nil => simp [submitAll]
  | cons t ts ih =>
    rw [List.length_cons] at hlen
    push_cast at hlen
    have hlt : (wp.taskQueue.length : Int) < wp.queueCap := by omega
    simp only [submitAll, Submit_ok wp t false hs hc hx hlt]
    have hlen' : ((({ wp with taskQueue := wp.taskQueue ++ [t] } : WorkerPool α).taskQueue.length : Int)
        + ts.length
        ≤ ({ wp with taskQueue := wp.taskQueue ++ [t] } : WorkerPool α).queueCap) := by
      simp only [List.length_append, List.length_cons, List.length_nil]
      push_cast
      omega
    rw [ih { wp with taskQueue := wp.taskQueue ++ [t] } hs hc hx hlen']
    simp

/-! ### The claimed properties, one theorem per claim -/

/-- C1: `NewWorkerPool(workerCount, queueCapacity)` returns a pool whose
`GetWorkerCount` is `workerCount` when `workerCount ≥ 1` and `1` when
`workerCount ≤ 0`, whose queue capacity is `queueCapacity` when
`queueCapacity ≥ 0` and `0` otherwise, and which is not started with all
four metrics counters zero. -/
theorem NewWorkerPool_clamps_and_initial_state (α : Type) (workerCount queueCapacity : Int) :
    (1 ≤ workerCount → (NewWorkerPool α workerCount queueCapacity).GetWorkerCount = workerCount)
    ∧ (workerCount ≤ 0 → (NewWorkerPool α workerCount queueCapacity).GetWorkerCount = 1)
    ∧ (0 ≤ queueCapacity → (NewWorkerPool α workerCount queueCapacity).queueCap = queueCapacity)
    ∧ (queueCapacity < 0 → (NewWorkerPool α workerCount queueCapacity).queueCap = 0)
    ∧ (NewWorkerPool α workerCount queueCapacity).IsRunning = false
    ∧ (NewWorkerPool α workerCount queueCapacity).GetMetrics = Metrics.empty := by
  unfold NewWorkerPool WorkerPool.GetWorkerCount WorkerPool.IsRunning WorkerPool.GetMetrics
  refine ⟨fun h => ?_, fun h => ?_, fun h => ?_, fun h => ?_, rfl, rfl⟩
  · simp only []
    rw [if_neg (by omega)]
  · simp only []
    rw [if_pos (by omega)]
  · simp only []
    rw [if_neg (by omega)]
  · simp only []
    rw [if_pos (by omega)]

/-- Witness for C1 at `workerCount = -2, queueCapacity = -1` and at
`workerCount = 3, queueCapacity = 5`. -/
theorem NewWorkerPool_clamps_and_initial_state_witness :
    (NewWorkerPool Int (-2) (-1)).GetWorkerCount = 1
    ∧ (NewWorkerPool Int (-2) (-1)).queueCap = 0
    ∧ (NewWorkerPool Int 3 5).GetWorkerCount = 3
    ∧ (NewWorkerPool Int 3 5).queueCap = 5
    ∧ (NewWorkerPool Int 3 5).IsRunning = false
    ∧ (NewWorkerPool Int 3 5).GetMetrics = Metrics.empty :=
  ⟨(NewWorkerPool_clamps_and_initial_state Int (-2) (-1)).2.1 (by decide),
   (NewWorkerPool_clamps_and_initial_state Int (-2) (-1)).2.2.2.1 (by decide),
   (NewWorkerPool_clamps_and_initial_state Int 3 5).1 (by decide),
   (NewWorkerPool_clamps_and_initial_state Int 3 5).2.2.1 (by decide),
   (NewWorkerPool_clamps_and_initial_state Int 3 5).2.2.2.2.1,
   (NewWorkerPool_clamps_and_initial_state Int 3 5).2.2.2.2.2⟩

/-- C2: `Submit` on a never-started pool, and on any pool after `Stop`
has completed, returns `ErrPoolNotStarted`; since the result is an error
and not an updated pool, the task is not enqueued. -/
theorem Submit_requires_started (α : Type) (wc qs : Int) (p : WorkerPool α)
    (t : Task α) (pick : Bool) :
    (NewWorkerPool α wc qs).Submit t pick = .err .ErrPoolNotStarted
    ∧ p.Stop.Submit t pick = .err .ErrPoolNotStarted := by
  constructor
  · exact Submit_of_not_started t pick (by simp [NewWorkerPool])
  · exact Submit_of_not_started t pick (Stop_started p)

/-- C6: `Start` is idempotent — a second `Start` leaves the pool state
(hence the live worker and dispatcher counts) exactly as after the first,
and `GetWorkerCount` is unchanged. -/
theorem Start_idempotent (α : Type) (p : WorkerPool α) :
    p.Start.Start = p.Start
    ∧ p.Start.GetWorkerCount = p.GetWorkerCount
    ∧ p.Start.Start.liveWorkers = p.Start.liveWorkers
    ∧ p.Start.Start.liveDispatchers = p.Start.liveDispatchers := by
  have h : p.Start.Start = p.Start := Start_of_started (Start_started p)
  have hw : p.Start.GetWorkerCount = p.GetWorkerCount := by
    unfold WorkerPool.Start WorkerPool.GetWorkerCount
    by_cases hs : p.started <;> simp [hs]
  exact ⟨h, hw, by rw [h], by rw [h]⟩

/-- C7: `Stop` on a pool that is not started (never started, or already
stopped) is a no-op: the state is unchanged — in particular the queue is
not closed and cancellation is not raised — and `IsRunning` is `false`. -/
theorem Stop_not_started_noop (α : Type) (p : WorkerPool α) (h : p.started = false) :
    p.Stop = p
    ∧ p.Stop.queueClosed = p.queueClosed
    ∧ p.Stop.cancelled = p.cancelled
    ∧ p.Stop.IsRunning = false := by
  have hp : p.Stop = p := by
    unfold WorkerPool.Stop
    simp [h]
  exact ⟨hp, by rw [hp], by rw [hp], by rw [hp]; simpa [WorkerPool.IsRunning] using h⟩

/-- Witness for C7 on the freshly constructed pool `NewWorkerPool Int 2 3`. -/
theorem Stop_not_started_noop_witness :
    (NewWorkerPool Int 2 3).Stop = NewWorkerPool Int 2 3
    ∧ (NewWorkerPool Int 2 3).Stop.IsRunning = false :=
  ⟨(Stop_not_started_noop Int (NewWorkerPool Int 2 3) rfl).1,
   (Stop_not_started_noop Int (NewWorkerPool Int 2 3) rfl).2.2.2⟩

/-- C3: on a freshly started pool of queue capacity `K` (no task being
removed from the queue in between), the first `K` submissions all succeed
and leave exactly those tasks buffered in order, and any further
submission returns `ErrQueueFull` without enqueueing. -/
theorem Submit_queue_full_after_capacity (α : Type) (wc : Int) (K : Nat)
    (ts : List (Task α)) (hlen : ts.length = K) :
    submitAll ((NewWorkerPool α wc (K : Int)).Start) ts
      = some { (NewWorkerPool α wc (K : Int)).Start with taskQueue := ts }
    ∧ ∀ (t : Task α) (pick : Bool),
        ({ (NewWorkerPool α wc (K : Int)).Start with taskQueue := ts } : WorkerPool α).Submit t pick
          = .err .ErrQueueFull := by
  have hKnn : ¬((K : Int) < 0) := by omega
  have hs : ((NewWorkerPool α wc (K : Int)).Start).started = true := Start_started _
  have hc : ((NewWorkerPool α wc (K : Int)).Start).queueClosed = false := by
    simp [NewWorkerPool, WorkerPool.Start]
  have hx : ((NewWorkerPool α wc (K : Int)).Start).cancelled = false := by
    simp [NewWorkerPool, WorkerPool.Start]
  have hq : ((NewWorkerPool α wc (K : Int)).Start).queueCap = (K : Int) := by
    simp [NewWorkerPool, WorkerPool.Start, hKnn]
  have hnil : ((NewWorkerPool α wc (K : Int)).Start).taskQueue = [] := by
    simp [NewWorkerPool, WorkerPool.Start]
  constructor
  · have h := submitAll_fills ts ((NewWorkerPool α wc (K : Int)).Start) hs hc hx
      (by rw [hq, hnil]; simp [hlen])
    rw [h, hnil]
    simp
  · intro t pick
    refine Submit_full _ t pick (by simpa using hs) (by simpa using hc)
      (by simpa using hx) ?_
    show ((NewWorkerPool α wc (K : Int)).Start).queueCap ≤ _
    rw [hq]
    simp [hlen]

/-- Witness for C3 with capacity `K = 2` and two concrete tasks. -/
theorem Submit_queue_full_after_capacity_witness :
    (submitAll ((NewWorkerPool Int 1 ((2 : Nat) : Int)).Start)
        [{ ID := 1, Payload := 0, Handler := fun x => (x, none),
           hasResultSink := false, hasErrorSink := false },
         { ID := 2, Payload := 0, Handler := fun x => (x, none),
           hasResultSink := false, hasErrorSink := false }]
      = some { (NewWorkerPool Int 1 ((2 : Nat) : Int)).Start with
               taskQueue := [{ ID := 1, Payload := 0, Handler := fun x => (x, none),
                               hasResultSink := false, hasErrorSink := false },
                             { ID := 2, Payload := 0, Handler := fun x => (x, none),
                               hasResultSink := false, hasErrorSink := false }] })
    ∧ ({ (NewWorkerPool Int 1 ((2 : Nat) : Int)).Start with
         taskQueue := [{ ID := 1, Payload := 0, Handler := fun x => (x, none),
                         hasResultSink := false, hasErrorSink := false },
                       { ID := 2, Payload := 0, Handler := fun x => (x, none),
                         hasResultSink := false, hasErrorSink := false }] } : WorkerPool Int).Submit
        { ID := 3, Payload := 0, Handler := fun x => (x, none),
          hasResultSink := false, hasErrorSink := false } true
      = .err .ErrQueueFull := by
  have h := Submit_queue_full_after_capacity Int 1 2
    [{ ID := 1, Payload := 0, Handler := fun x => (x, none),
       hasResultSink := false, hasErrorSink := false },
     { ID := 2, Payload := 0, Handler := fun x => (x, none),
       hasResultSink := false, hasErrorSink := false }] rfl
  exact ⟨h.1, h.2 _ true⟩

/-- C4: one `updateMetrics(err, duration)` call — in the absence of
`int64` overflow — increments `TasksProcessed` by exactly 1, adds
`duration` to `TotalDuration`, increments `TasksFailed` by exactly 1
precisely when `err` is non-nil, and recomputes `AverageDuration` as the
truncated quotient of the new total by the new processed count. -/
theorem updateMetrics_spec (m : Metrics) (err : Option String) (duration : Int)
    (hp0 : 0 ≤ m.TasksProcessed)
    (hp : m.TasksProcessed + 1 < 9223372036854775808)
    (hf0 : 0 ≤ m.TasksFailed)
    (hf : m.TasksFailed + 1 < 9223372036854775808)
    (ht1 : -9223372036854775808 ≤ m.TotalDuration + duration)
    (ht2 : m.TotalDuration + duration < 9223372036854775808) :
    (updateMetrics m err duration).TasksProcessed = m.TasksProcessed + 1
    ∧ (updateMetrics m err duration).TotalDuration = m.TotalDuration + duration
    ∧ (updateMetrics m err duration).TasksFailed
        = (if err.isSome then m.TasksFailed + 1 else m.TasksFailed)
    ∧ (updateMetrics m err duration).AverageDuration
        = (m.TotalDuration + duration).tdiv (m.TasksProcessed + 1) := by
  have e1 : wrap64 (m.TasksProcessed + 1) = m.TasksProcessed + 1 :=
    wrap64_id (by omega) hp
  have e2 : wrap64 (m.TotalDuration + duration) = m.TotalDuration + duration :=
    wrap64_id ht1 ht2
  have e3 : wrap64 (m.TasksFailed + 1) = m.TasksFailed + 1 :=
    wrap64_id (by omega) hf
  simp only [updateMetrics, e1, e2, e3]
  refine ⟨trivial, trivial, trivial, ?_⟩
  rw [if_pos (by omega)]

/-- Witness for C4 on the metrics state `(5, 1, 100, 20)` with a non-nil
error and duration 7. -/
theorem updateMetrics_spec_witness :
    (updateMetrics ⟨5, 1, 100, 20⟩ (some "boom") 7).TasksProcessed = 6
    ∧ (updateMetrics ⟨5, 1, 100, 20⟩ (some "boom") 7).TotalDuration = 107
    ∧ (updateMetrics ⟨5, 1, 100, 20⟩ (some "boom") 7).TasksFailed = 2
    ∧ (updateMetrics ⟨5, 1, 100, 20⟩ (some "boom") 7).AverageDuration = 17 := by
  have h := updateMetrics_spec ⟨5, 1, 100, 20⟩ (some "boom") 7 (by decide) (by decide)
    (by decide) (by decide) (by decide) (by decide)
  refine ⟨?_, ?_, ?_, ?_⟩
  · rw [h.1]
    decide
  · rw [h.2.1]
    decide
  · rw [h.2.2.1]
    decide
  · rw [h.2.2.2]
    decide

/-- C5: when a worker processes a task, the metrics are updated first
(also when both sinks are absent); on a handler error exactly that error
goes to the error sink when present and nothing to the result sink; on
success a `Result` with the task's ID, its payload, the handler output
and the measured duration goes to the result sink when present and
nothing to the error sink; an absent sink discards the outcome. -/
theorem processTask_publishes_outcome (α : Type) (m : Metrics) (task : Task α)
    (duration : Int) :
    (processTask m task duration).metrics
        = updateMetrics m (task.Handler task.Payload).2 duration
    ∧ (∀ e, (task.Handler task.Payload).2 = some e →
        (processTask m task duration).resultSent = none
        ∧ (processTask m task duration).errSent
            = (if task.hasErrorSink then some e else none))
    ∧ ((task.Handler task.Payload).2 = none →
        (processTask m task duration).errSent = none
        ∧ (processTask m task duration).resultSent
            = (if task.hasResultSink then
                some { TaskID := task.ID, Payload := task.Payload,
                       Output := (task.Handler task.Payload).1, Duration := duration }
              else none)) := by
  simp only [processTask]
  cases h : (task.Handler task.Payload).2 with
  | none => simp [h]
  | some e => simp [h]

/-- Witness for C5 on one always-failing and one always-succeeding
concrete task, both with both sinks present. -/
theorem processTask_publishes_outcome_witness :
    (processTask Metrics.empty
        ⟨7, 3, fun _ => ((0 : Int), some "boom"), true, true⟩ 9).errSent = some "boom"
    ∧ (processTask Metrics.empty
        ⟨7, 3, fun _ => ((0 : Int), some "boom"), true, true⟩ 9).resultSent = none
    ∧ (processTask Metrics.empty
        ⟨8, 4, fun x => ((x + 1 : Int), none), true, true⟩ 9).errSent = none
    ∧ (processTask Metrics.empty
        ⟨8, 4, fun x => ((x + 1 : Int), none), true, true⟩ 9).resultSent
        = some { TaskID := 8, Payload := 4, Output := 5, Duration := 9 }
    ∧ (processTask Metrics.empty
        ⟨8, 4, fun x => ((x + 1 : Int), none), true, true⟩ 9).metrics
        = updateMetrics Metrics.empty none 9 := by
  have h1 := processTask_publishes_outcome Int Metrics.empty
    ⟨7, 3, fun _ => ((0 : Int), some "boom"), true, true⟩ 9
  have h2 := processTask_publishes_outcome Int Metrics.empty
    ⟨8, 4, fun x => ((x + 1 : Int), none), true, true⟩ 9
  refine ⟨?_, ?_, ?_, ?_, ?_⟩
  · simpa using (h1.2.1 "boom" rfl).2
  · simpa using (h1.2.1 "boom" rfl).1
  · simpa using (h2.2.2 rfl).1
  · simpa using (h2.2.2 rfl).2
  · simpa using h2.1

/-- C8: `GetMetrics` is the copy `snapshotOf` of the pool's four
counters — a consistent read of all four at the moment of the call — and
in any history of metrics updates and snapshot calls the values returned
by the snapshots of a prefix are unaffected by whatever updates run
after that prefix. -/
theorem GetMetrics_snapshot_immutable (α : Type) (wp : WorkerPool α) (m : Metrics)
    (pre post : List MetricsEvent) :
    wp.GetMetrics = snapshotOf wp.metrics
    ∧ (wp.GetMetrics.TasksProcessed = wp.metrics.TasksProcessed
      ∧ wp.GetMetrics.TasksFailed = wp.metrics.TasksFailed
      ∧ wp.GetMetrics.TotalDuration = wp.metrics.TotalDuration
      ∧ wp.GetMetrics.AverageDuration = wp.metrics.AverageDuration)
    ∧ runMetricsTrace m (pre ++ post)
        = runMetricsTrace m pre ++ runMetricsTrace (applyEvents m pre) post := by
  refine ⟨rfl, ⟨rfl, rfl, rfl, rfl⟩, ?_⟩
  induction pre generalizing m with
  | nil => simp [runMetricsTrace, applyEvents]
  | cons ev evs ih =>
    cases ev with
    | update e d => simp [runMetricsTrace, applyEvents, ih]
    | snapshot => simp [runMetricsTrace, applyEvents, ih]

/-- The error count of a list of update arguments is non-negative. -/
theorem errCount_nonneg (l : List (Option String × Int)) : 0 ≤ errCount l := by
  induction l with
  | nil => simp [errCount]
  | cons p l ih =>
    obtain ⟨e, d⟩ := p
    unfold errCount
    by_cases he : e.isSome <;> simp [he] <;> omega

/-- The error count of a list of update arguments is at most its length. -/
theorem errCount_le_length (l : List (Option String × Int)) :
    errCount l ≤ (l.length : Int) := by
  induction l with
  | nil => simp [errCount]
  | cons p l ih =>
    obtain ⟨e, d⟩ := p
    unfold errCount
    rw [List.length_cons]
    push_cast
    by_cases he : e.isSome <;> simp [he] <;> omega

/-- Folding `updateMetrics` over a list of update arguments, below the
`int64` overflow bound, adds the list length to `TasksProcessed` and the
number of non-nil errors to `TasksFailed`. -/
theorem updateAll_counts (m : Metrics) (l : List (Option String × Int))
    (hf0 : 0 ≤ m.TasksFailed) (hfp : m.TasksFailed ≤ m.TasksProcessed)
    (hbound : m.TasksProcessed + l.length < 9223372036854775808) :
    (updateAll m l).TasksProcessed = m.TasksProcessed + l.length
    ∧ (updateAll m l).TasksFailed = m.TasksFailed + errCount l := by
  induction l generalizing m with
  | nil => simp [updateAll, errCount]
  | cons p l ih =>
    obtain ⟨e, d⟩ := p
    rw [List.length_cons] at hbound
    push_cast at hbound
    have hproj1 : (updateMetrics m e d).TasksProcessed = wrap64 (m.TasksProcessed + 1) := rfl
    have hproj2 : (updateMetrics m e d).TasksFailed
        = (if e.isSome then wrap64 (m.TasksFailed + 1) else m.TasksFailed) := rfl
    have h1 : (updateMetrics m e d).TasksProcessed = m.TasksProcessed + 1 := by
      rw [hproj1, wrap64_id (by omega) (by omega)]
    have h2 : (updateMetrics m e d).TasksFailed
        = (if e.isSome then m.TasksFailed + 1 else m.TasksFailed) := by
      rw [hproj2]
      by_cases he : e.isSome <;> simp [he]
      exact wrap64_id (by omega) (by omega)
    have hf0' : 0 ≤ (updateMetrics m e d).TasksFailed := by
      rw [h2]
      by_cases he : e.isSome <;> simp [he] <;> omega
    have hfp' : (updateMetrics m e d).TasksFailed ≤ (updateMetrics m e d).TasksProcessed := by
      rw [h1, h2]
      by_cases he : e.isSome <;> simp [he] <;> omega
    have hbound' : (updateMetrics m e d).TasksProcessed + (l.length : Int)
        < 9223372036854775808 := by
      rw [h1]
      omega
    have ihm := ih (updateMetrics m e d) hf0' hfp' hbound'
    have hcons : errCount ((e, d) :: l) = (if e.isSome then 1 else 0) + errCount l := rfl
    rw [updateAll, ihm.1, ihm.2, h1, h2, hcons, List.length_cons]
    push_cast
    constructor
    · omega
    · by_cases he : e.isSome
      · simp only [he, if_true]
        omega
      · simp only [if_neg he]
        omega

/-- C10: starting from the all-zero metrics of a fresh pool, after any
sequence of `updateMetrics` calls (shorter than the `int64` overflow
bound) `TasksFailed` is between 0 and `TasksProcessed`, `TasksProcessed`
is the number of updates, and `TasksFailed` is the number of updates
whose error was non-nil. -/
theorem metrics_invariant (l : List (Option String × Int))
    (hbound : (l.length : Int) < 9223372036854775808) :
    0 ≤ (updateAll Metrics.empty l).TasksFailed
    ∧ (updateAll Metrics.empty l).TasksFailed ≤ (updateAll Metrics.empty l).TasksProcessed
    ∧ (updateAll Metrics.empty l).TasksProcessed = l.length
    ∧ (updateAll Metrics.empty l).TasksFailed = errCount l := by
  have h := updateAll_counts Metrics.empty l (by decide) (by decide)
    (by show (0 : Int) + l.length < 9223372036854775808; omega)
  have hp : (updateAll Metrics.empty l).TasksProcessed = (l.length : Int) := by
    rw [h.1]
    show (0 : Int) + l.length = l.length
    omega
  have hf : (updateAll Metrics.empty l).TasksFailed = errCount l := by
    rw [h.2]
    show (0 : Int) + errCount l = errCount l
    omega
  refine ⟨?_, ?_, hp, hf⟩
  · rw [hf]
    exact errCount_nonneg l
  · rw [hf, hp]
    exact errCount_le_length l

/-- Witness for C10 on the two-update sequence: one failing update of
duration 5, one succeeding update of duration 3. -/
theorem metrics_invariant_witness :
    (updateAll Metrics.empty [(some "e", 5), (none, 3)]).TasksProcessed = 2
    ∧ (updateAll Metrics.empty [(some "e", 5), (none, 3)]).TasksFailed = 1 := by
  have h := metrics_invariant [(some "e", 5), (none, 3)] (by decide)
  constructor
  · rw [h.2.2.1]
    decide
  · rw [h.2.2.2]
    decide

/-- C9 counterexample: `Submit` and `Stop` both run under the pool's
mutex (`mu.RLock` / `mu.Lock`), so an interleaving of one `Submit` with
one `Stop` on a started pool serializes into one of two orders.  On the
concrete started pool `(NewWorkerPool Int 2 3).Start`, both orders — for
either resolution of the `select` tie-break — fail to produce
`ErrPoolStopped`: submitting first enqueues the task, submitting after
the `Stop` returns `ErrPoolNotStarted`. -/
theorem Submit_stop_interleavings_never_stopped :
    ((NewWorkerPool Int 2 3).Start.Submit probeTask true
      = .ok { (NewWorkerPool Int 2 3).Start with taskQueue := [probeTask] })
    ∧ ((NewWorkerPool Int 2 3).Start.Submit probeTask false
      = .ok { (NewWorkerPool Int 2 3).Start with taskQueue := [probeTask] })
    ∧ ((NewWorkerPool Int 2 3).Start.Stop.Submit probeTask true
      = .err .ErrPoolNotStarted)
    ∧ ((NewWorkerPool Int 2 3).Start.Stop.Submit probeTask false
      = .err .ErrPoolNotStarted) :=
  ⟨rfl, rfl, rfl, rfl⟩

/-- C9 amended: on any pool whose cancellation signal has not been
raised — which covers every pool a `Submit`/`Stop` interleaving can
observe, since `Stop` clears `started` before releasing the mutex —
`Submit` never returns `ErrPoolStopped`, and a `Submit` serialized after
the `Stop` returns `ErrPoolNotStarted`.  `ErrPoolStopped` is reachable
only by restarting a stopped pool (`Stop` then `Start`), after which a
`Submit` whose `select` resolves to the cancellation case returns it. -/
theorem Submit_stopped_only_after_restart (α : Type) (s : WorkerPool α)
    (t : Task α) (pick : Bool) (hx : s.cancelled = false) :
    (s.Submit t pick ≠ .err .ErrPoolStopped)
    ∧ (s.Stop.Submit t pick = .err .ErrPoolNotStarted)
    ∧ ((NewWorkerPool Int 1 1).Start.Stop.Start.Submit probeTask false
        = .err .ErrPoolStopped) := by
  refine ⟨?_, Submit_of_not_started t pick (Stop_started s), rfl⟩
  unfold WorkerPool.Submit
  by_cases hs : s.started = false
  · rw [if_pos hs]
    simp
  · rw [if_neg hs]
    by_cases hready : (s.queueClosed = true ∨ (s.taskQueue.length : Int) < s.queueCap)
    · rw [if_pos ⟨hready, Or.inl hx⟩]
      split <;> simp
    · rw [if_neg (fun hand => hready hand.1), if_neg (by simp [hx])]
      simp

/-- Witness for C9's amended statement on the concrete started pool
`(NewWorkerPool Int 2 3).Start`, whose cancellation flag is `false`. -/
theorem Submit_stopped_only_after_restart_witness :
    ((NewWorkerPool Int 2 3).Start.Submit probeTask false ≠ .err .ErrPoolStopped)
    ∧ ((NewWorkerPool Int 2 3).Start.Stop.Submit probeTask false
        = .err .ErrPoolNotStarted)
    ∧ ((NewWorkerPool Int 1 1).Start.Stop.Start.Submit probeTask false
        = .err .ErrPoolStopped) :=
  ⟨(Submit_stopped_only_after_restart Int ((NewWorkerPool Int 2 3).Start)
      probeTask false rfl).1,
   (Submit_stopped_only_after_restart Int ((NewWorkerPool Int 2 3).Start)
      probeTask false rfl).2.1,
   (Submit_stopped_only_after_restart Int ((NewWorkerPool Int 2 3).Start)
      probeTask false rfl).2.2⟩

end workerpool
